import Mathlib

/-!
Shallow embedding of the spectral data model of `soxs/spectra.py`.

Conventions of the embedding:
* Python floats are exact binary rationals, so all numeric inputs (bin edges,
  fluxes, column densities, redshifts, tolerances, model coefficients) are
  carried as `ℚ` with exact arithmetic; the only values that leave `ℚ` are
  the transcendental `exp` factors of the absorption operations, which live
  in `ℝ`.
* The IEEE special values produced by `flux / earea` in
  `ConvolvedSpectrum.deconvolve` are modelled explicitly by the `FVal` type
  (finite / +inf / -inf / NaN) together with `np.nan_to_num`'s replacement
  rule; everywhere else the code divides by provably nonzero quantities.
* Stateful mutation (`self.flux *= ...` followed by
  `self._compute_total_flux()`) is modelled by explicit state passing: each
  mutating method is a function `Spectrum → ... → Spectrum` (or `Except`
  for methods that can raise).  The cached derived quantities
  (`total_flux`, `total_energy_flux`, `cumspec`) are *stored fields*, so a
  method that forgets to refresh them leaves a stale cache, exactly as in
  the source.
* External collaborators (the ARF response object of `soxs.response` and
  the tbabs spline table, neither of which is part of this repository's
  sources) are modelled as read-only oracles.
-/

/-- External effective-area collaborator (`soxs.response`): a read-only
interpolation oracle `interpolate_area(energies) -> areas`. -/
structure ARF where
  interpolate_area : ℚ → ℚ

/-- The unit-tag / variant of a spectrum object: `Spectrum`
(photon flux density), `CountRateSpectrum`, or `ConvolvedSpectrum`
(count-rate density, holding a non-owning reference to an ARF). -/
inductive SpecKind where
  | plain : SpecKind
  | countRate : SpecKind
  | convolved : ARF → SpecKind

/-- The `_units` class attribute: `Spectrum._units = "photon/(cm**2*s*keV)"`,
`CountRateSpectrum._units = "photon/(s*keV)"`; `ConvolvedSpectrum` inherits
the latter. -/
def unitsOf : SpecKind → String
  | SpecKind.plain => "photon/(cm**2*s*keV)"
  | SpecKind.countRate => "photon/(s*keV)"
  | SpecKind.convolved _ => "photon/(s*keV)"

/-- The Python exceptions the modelled methods can raise. -/
inductive SpecError where
  | binningNotSame : SpecError
  | unitsNotSame : SpecError
  | notImplemented : SpecError
  | unboundLocal : SpecError
deriving DecidableEq

/-- Bin midpoints, `0.5*(ebins[1:]+ebins[:-1])`. -/
def emidOf (ebins : List ℚ) : List ℚ :=
  (ebins.zip ebins.tail).map (fun p => (p.1 + p.2) / 2)

/-- Bin widths, `np.diff(ebins)`. -/
def deOf (ebins : List ℚ) : List ℚ :=
  (ebins.zip ebins.tail).map (fun p => p.2 - p.1)

/-- Helper for `np.cumsum`. -/
def cumsumGo (acc : ℚ) : List ℚ → List ℚ
  | [] => []
  | x :: xs => (acc + x) :: cumsumGo (acc + x) xs

/-- Running partial sums, as `np.cumsum`. -/
def cumsum (l : List ℚ) : List ℚ := cumsumGo 0 l

/-- keV → erg conversion constant (`soxs.constants.erg_per_keV`, an external
physical constant ≈ 1.602e-9; its exact value is irrelevant to every claim). -/
def erg_per_keV : ℚ := 1602176634 / 10 ^ 18

/-- The spectrum object.  `ebins`/`flux`/`kind` are the primary state;
`total_flux`, `total_energy_flux` and `cumspec` are the cached derived
quantities set by `_compute_total_flux` (they are stored, not recomputed on
read, exactly as in the source, so staleness is observable). -/
structure Spectrum where
  ebins : List ℚ
  flux : List ℚ
  kind : SpecKind
  total_flux : ℚ
  total_energy_flux : ℚ
  cumspec : List ℚ

/-- The per-bin photon rates `flux * de`. -/
def fluxDe (s : Spectrum) : List ℚ := List.zipWith (· * ·) s.flux (deOf s.ebins)

/-- Method `Spectrum._compute_total_flux`: recompute the cached aggregates and the
normalized cumulative distribution from the current `flux`.
(`self.func`, the flux interpolant lambda, is not used by any modelled
operation and is omitted.)  `cumspec[-1]` can be zero only for an
identically-zero spectrum; no claim evaluates that case (numpy would give
NaNs there, `ℚ` division gives 0). -/
def Spectrum.compute_total_flux (s : Spectrum) : Spectrum :=
  let fd := fluxDe s
  let c := (0 : ℚ) :: cumsum fd
  { s with
    total_flux := fd.sum
    total_energy_flux := (List.zipWith (· * ·) (List.zipWith (· * ·) s.flux (emidOf s.ebins)) (deOf s.ebins)).sum * erg_per_keV
    cumspec := c.map (· / c.getLastD 0) }

/-- Constructor `Spectrum.__init__` (and the subclass constructors): store the bins and
flux and call `_compute_total_flux`. -/
def mkSpectrum (ebins flux : List ℚ) (kind : SpecKind) : Spectrum :=
  Spectrum.compute_total_flux
    { ebins := ebins, flux := flux, kind := kind,
      total_flux := 0, total_energy_flux := 0, cumspec := [] }

/-- Attribute `self.nbins = len(self.emid)`. -/
def Spectrum.nbins (s : Spectrum) : ℕ := (emidOf s.ebins).length

/-- Function `np.isclose` with numpy's default tolerances
(`rtol=1e-5`, `atol=1e-8`): `|a-b| <= atol + rtol*|b|`. -/
def npIsclose (a b : ℚ) : Bool := decide (|a - b| ≤ 1 / 10 ^ 8 + |b| / 10 ^ 5)

/-- Test `np.isclose(xs, ys).all()` for same-shaped arrays. -/
def npIscloseAll (xs ys : List ℚ) : Bool :=
  (xs.zip ys).all (fun p => npIsclose p.1 p.2)

/-- Method `Spectrum._check_binning_units`, as a pure test: `True` means the two
spectra are combinable, `False` means the method raises.  The source first
raises on `nbins`/`isclose` mismatch, then on a `_units` mismatch. -/
def Spectrum.binning_units_ok (s other : Spectrum) : Bool :=
  (s.nbins == other.nbins) && npIscloseAll s.ebins other.ebins
    && (unitsOf s.kind == unitsOf other.kind)

/-- Method `Spectrum._check_binning_units`: the raised error, if any (binning is
checked before units, both raise `RuntimeError`). -/
def Spectrum.check_binning_units (s other : Spectrum) : Except SpecError Unit :=
  if s.nbins ≠ other.nbins ∨ ¬ npIscloseAll s.ebins other.ebins then
    Except.error SpecError.binningNotSame
  else if unitsOf s.kind ≠ unitsOf other.kind then
    Except.error SpecError.unitsNotSame
  else Except.ok ()

/-- Operator `Spectrum.__add__` (and `ConvolvedSpectrum.__add__`, which differs only
in passing `self.arf` to the constructor — here carried by `kind`):
check binning/units, then build a brand-new spectrum with the element-wise
flux sum.  Neither operand is modified. -/
def Spectrum.add (s other : Spectrum) : Except SpecError Spectrum := do
  _ ← s.check_binning_units other
  pure (mkSpectrum s.ebins (List.zipWith (· + ·) s.flux other.flux) s.kind)

/-- Operator `Spectrum.__sub__` / `ConvolvedSpectrum.__sub__`: element-wise flux
difference on a new instance. -/
def Spectrum.sub (s other : Spectrum) : Except SpecError Spectrum := do
  _ ← s.check_binning_units other
  pure (mkSpectrum s.ebins (List.zipWith (· - ·) s.flux other.flux) s.kind)

/-- Operator `Spectrum.__iadd__`: checks binning/units and mutates `self.flux` in
place.  NOTE (faithful to the source): unlike every other mutating method of
the class, `__iadd__` does **not** call `_compute_total_flux`, so the cached
`total_flux`/`total_energy_flux`/`cumspec` fields are left stale. -/
def Spectrum.iadd (s other : Spectrum) : Except SpecError Spectrum := do
  _ ← s.check_binning_units other
  pure { s with flux := List.zipWith (· + ·) s.flux other.flux }

/-- Method `Spectrum.restrict_within_band`: zero the flux of bins whose midpoint
lies below `emin` or above `emax`, then recompute the aggregates. -/
def Spectrum.restrict_within_band (s : Spectrum) (emin emax : Option ℚ) : Spectrum :=
  let f1 := match emin with
    | none => s.flux
    | some mn => List.zipWith (fun f m => if m < mn then (0 : ℚ) else f) s.flux (emidOf s.ebins)
  let f2 := match emax with
    | none => f1
    | some mx => List.zipWith (fun f m => if mx < m then (0 : ℚ) else f) f1 (emidOf s.ebins)
  Spectrum.compute_total_flux { s with flux := f2 }

/-- Sum of `flux*de` (photon flux) over the bins whose midpoint lies in
`[emin, emax]` — the band selector of `rescale_flux` / `get_flux_in_band`. -/
def bandPhotonSum (s : Spectrum) (emin emax : ℚ) : ℚ :=
  ((List.zipWith (· * ·) s.flux (deOf s.ebins)).zip (emidOf s.ebins)).foldr
    (fun p acc => if emin ≤ p.2 ∧ p.2 ≤ emax then p.1 + acc else acc) 0

/-- Sum of `flux*emid*de` (energy flux, converted to erg) over the selected
band, as in the `flux_type == "energy"` branch of `rescale_flux`. -/
def bandEnergySum (s : Spectrum) (emin emax : ℚ) : ℚ :=
  ((List.zipWith (· * ·) (List.zipWith (· * ·) s.flux (emidOf s.ebins)) (deOf s.ebins)).zip
      (emidOf s.ebins)).foldr
    (fun p acc => if emin ≤ p.2 ∧ p.2 ≤ emax then p.1 + acc else acc) 0 * erg_per_keV

/-- Method `Spectrum.rescale_flux`: multiply the whole flux array by
`new_flux / f` where `f` is the integrated total over the selected band.
If `flux_type` is neither `"photons"` nor `"energy"`, the local variable
`f` is never assigned and the statement `self.flux *= new_flux/f.value`
raises `UnboundLocalError` before any mutation — modelled by
`SpecError.unboundLocal`. -/
def Spectrum.rescale_flux (s : Spectrum) (new_flux : ℚ) (emin emax : Option ℚ)
    (flux_type : String) : Except SpecError Spectrum :=
  let mn := emin.getD (s.ebins.headD 0)
  let mx := emax.getD (s.ebins.getLastD 0)
  if flux_type = "photons" then
    Except.ok (Spectrum.compute_total_flux
      { s with flux := s.flux.map (· * (new_flux / bandPhotonSum s mn mx)) })
  else if flux_type = "energy" then
    Except.ok (Spectrum.compute_total_flux
      { s with flux := s.flux.map (· * (new_flux / bandEnergySum s mn mx)) })
  else Except.error SpecError.unboundLocal

/-- Method `Spectrum._new_spec_from_band`: the indices of the edges lying in
`[emin, emax]`, the corresponding edge subset, and
`flux[idxs[:-1]]`. -/
def newBandData (s : Spectrum) (emin emax : ℚ) : List ℚ × List ℚ :=
  let idxs := (List.range s.ebins.length).filter
    (fun i => decide (emin ≤ s.ebins.getD i 0 ∧ s.ebins.getD i 0 ≤ emax))
  (idxs.map (fun i => s.ebins.getD i 0), idxs.dropLast.map (fun i => s.flux.getD i 0))

/-- Method `new_spec_from_band`: the base-class method (used by `Spectrum` **and**
by `CountRateSpectrum`, which does not override it) always constructs a
plain `Spectrum`; the `ConvolvedSpectrum` override constructs a
`ConvolvedSpectrum` bound to `self.arf`. -/
def Spectrum.new_spec_from_band (s : Spectrum) (emin emax : ℚ) : Spectrum :=
  let d := newBandData s emin emax
  match s.kind with
  | SpecKind.convolved arf => mkSpectrum d.1 d.2 (SpecKind.convolved arf)
  | _ => mkSpectrum d.1 d.2 SpecKind.plain

/-- An IEEE double at the level of detail `deconvolve` needs: a finite value
(an exact binary rational), ±infinity, or NaN. -/
inductive FVal where
  | finite : ℚ → FVal
  | posinf : FVal
  | neginf : FVal
  | nan : FVal
deriving DecidableEq

/-- IEEE division of two finite doubles (`flux / earea` in `deconvolve`):
division by zero gives ±inf for a nonzero numerator and NaN for `0/0`;
otherwise the finite quotient. -/
def fdiv (a b : ℚ) : FVal :=
  if b ≠ 0 then FVal.finite (a / b)
  else if 0 < a then FVal.posinf
  else if a < 0 then FVal.neginf
  else FVal.nan

/-- The largest finite IEEE double, `(2^53 - 1) * 2^971` ≈ 1.79769e308. -/
def maxFloat : ℚ := (2 ^ 53 - 1) * 2 ^ 971

/-- Function `np.nan_to_num` with its default replacements: NaN ↦ 0.0, +inf ↦ the
largest finite double, -inf ↦ its negation, finite values unchanged. -/
def nanToNum : FVal → ℚ
  | FVal.finite q => q
  | FVal.posinf => maxFloat
  | FVal.neginf => -maxFloat
  | FVal.nan => 0

/-- Classmethod `ConvolvedSpectrum.convolve`: interpolate the ARF's effective area at
every bin midpoint, multiply the flux by it, and return a new
`ConvolvedSpectrum` bound to that ARF. -/
def ConvolvedSpectrum.convolve (spectrum : Spectrum) (arf : ARF) : Spectrum :=
  let earea := (emidOf spectrum.ebins).map arf.interpolate_area
  mkSpectrum spectrum.ebins (List.zipWith (· * ·) spectrum.flux earea)
    (SpecKind.convolved arf)

/-- The flux array built by `ConvolvedSpectrum.deconvolve`:
`np.nan_to_num(self.flux / earea)`, element-wise. -/
def deconvolveFlux (flux earea : List ℚ) : List ℚ :=
  (flux.zip earea).map (fun p => nanToNum (fdiv p.1 p.2))

/-- Method `ConvolvedSpectrum.deconvolve`: divide the count-rate flux by the
interpolated area at each midpoint, push the result through
`np.nan_to_num`, and return a plain flux-domain `Spectrum` (the response
binding is discarded).  The method only exists on `ConvolvedSpectrum`
(`none` models the `AttributeError` of calling it on any other variant). -/
def Spectrum.deconvolve (s : Spectrum) : Option Spectrum :=
  match s.kind with
  | SpecKind.convolved arf =>
    some (mkSpectrum s.ebins
      (deconvolveFlux s.flux ((emidOf s.ebins).map arf.interpolate_area))
      SpecKind.plain)
  | _ => none

/-- Function `np.searchsorted(l, x)` (side `'left'`) on a sorted list: the number of
elements strictly below `x`. -/
def countLt : List ℚ → ℚ → ℕ
  | [], _ => 0
  | a :: l, x => (if a < x then 1 else 0) + countLt l x

/-- Numpy integer indexing, which accepts negative indices counting from the
end (`searchsorted - 1` is `-1` for energies at or below the first boundary). -/
def npGet (l : List ℚ) (i : ℤ) : ℚ :=
  if i < 0 then l.getD (l.length - (-i).toNat) 0 else l.getD i.toNat 0

/-- The 15 segment boundaries of the wabs fit (keV). -/
def wabsEmax : List ℚ :=
  [0, 1/10, 284/1000, 4/10, 532/1000, 707/1000, 867/1000, 1303/1000, 184/100,
   2471/1000, 321/100, 4038/1000, 7111/1000, 8331/1000, 10]

/-- wabs polynomial coefficients `c0`. -/
def wabsC0 : List ℚ :=
  [173/10, 346/10, 781/10, 714/10, 955/10, 3089/10, 1206/10, 1413/10,
   2027/10, 3427/10, 3522/10, 4339/10, 629, 7012/10]

/-- wabs polynomial coefficients `c1`. -/
def wabsC1 : List ℚ :=
  [6081/10, 2679/10, 188/10, 668/10, 1458/10, -3806/10, 1693/10,
   1468/10, 1047/10, 187/10, 187/10, -24/10, 309/10, 252/10]

/-- wabs polynomial coefficients `c2`. -/
def wabsC2 : List ℚ :=
  [-2150, -4761/10, 43/10, -514/10, -611/10, 294, -477/10,
   -315/10, -17, 0, 0, 3/4, 0, 0]

/-- Function `wabs_cross_section`: piecewise-quadratic photoelectric cross section,
`(c0 + c1*E + c2*E^2) * 1e-24 / E^3` with the coefficients of segment
`min(searchsorted(emax, E) - 1, 13)`. -/
def wabs_cross_section (E : ℚ) : ℚ :=
  let i : ℤ := min ((countLt wabsEmax E : ℤ) - 1) 13
  (npGet wabsC0 i + npGet wabsC1 i * E + npGet wabsC2 i * E ^ 2) * (1 / 10 ^ 24) / E ^ 3

/-- The tbabs collaborator: `InterpolatedUnivariateSpline(emid, sigma, k=5,
ext=1)` built from the external `tbabs_table.h5` dataset (not part of this
repository).  Modelled as an oracle: an unknown interpolant over an unknown
table domain `[elo, ehi]`, constrained only by what `ext=1` guarantees —
evaluation outside the data range returns exactly zero. -/
structure TbabsTable where
  elo : ℚ
  ehi : ℚ
  sigma : ℚ → ℚ
  ext_zero : ∀ e, e < elo ∨ ehi < e → sigma e = 0

/-- The flux array produced by the body of
`Spectrum.apply_foreground_absorption` for cross-section model `σ`:
`flux * exp(-nH*1e22*σ(emid*(1+z)))`, element-wise (the exact `exp` lives
in `ℝ`). -/
noncomputable def absorbFlux (σ : ℚ → ℚ) (nH z : ℚ) (s : Spectrum) : List ℝ :=
  (s.flux.zip (emidOf s.ebins)).map
    (fun p => (p.1 : ℝ) * Real.exp (-((nH : ℝ) * 10 ^ 22 * (σ (p.2 * (1 + z)) : ℝ))))

/-- Method `apply_foreground_absorption`, with the class dispatch of the source:
`ConvolvedSpectrum` overrides it with `raise NotImplementedError`; plain
`Spectrum` **and** `CountRateSpectrum` (which does not override it) run the
base implementation, which evaluates wabs or tbabs at `emid*(1+z)` and
multiplies the flux by the transmission (an unrecognized model string leaves
the local `sigma` unassigned, raising `UnboundLocalError`).  The result is
the new flux array. -/
noncomputable def Spectrum.apply_foreground_absorption (tb : TbabsTable)
    (s : Spectrum) (nH : ℚ) (model : String) (z : ℚ) : Except SpecError (List ℝ) :=
  match s.kind with
  | SpecKind.convolved _ => Except.error SpecError.notImplemented
  | _ =>
    if model = "wabs" then Except.ok (absorbFlux wabs_cross_section nH z s)
    else if model = "tbabs" then Except.ok (absorbFlux tb.sigma nH z s)
    else Except.error SpecError.unboundLocal

/-- Insertion step for the ascending sort (`randvec.sort()`). -/
def insertSorted (x : ℚ) : List ℚ → List ℚ
  | [] => [x]
  | y :: ys => if x ≤ y then x :: y :: ys else y :: insertSorted x ys

/-- Ascending sort, `randvec.sort()`. -/
def sortAsc (l : List ℚ) : List ℚ := l.foldr insertSorted []

/-- Function `np.interp` over a list of `(xp, fp)` pairs: clamp to the first/last
`fp` outside the table, linear interpolation inside. -/
def npInterpPairs (x : ℚ) : List (ℚ × ℚ) → ℚ
  | [] => 0
  | [p] => p.2
  | p :: q :: rest =>
    if x < p.1 then p.2
    else if x ≤ q.1 then p.2 + (q.2 - p.2) * (x - p.1) / (q.1 - p.1)
    else npInterpPairs x (q :: rest)

/-- Function `np.interp(x, xp, fp)`. -/
def npInterp (x : ℚ) (xp fp : List ℚ) : ℚ := npInterpPairs x (xp.zip fp)

/-- A seeded pseudo-random generator in the sense of
`numpy.random.RandomState`: each draw is a pure function of the current
generator state, returning the drawn value(s) and the advanced state.
This captures exactly what `generate_energies` relies on — no randomness
outside the passed generator. -/
structure RNGAlg where
  poisson : ℕ → ℚ → ℕ × ℕ
  uniform : ℕ → ℕ → List ℚ × ℕ

/-- Function `_generate_energies` as called from `Spectrum.generate_energies`:
`rate = area*total_flux`; `n_ph = prng.poisson(t_exp*rate)`;
`randvec = prng.uniform(size=n_ph)`; `randvec.sort()`;
`e = np.interp(randvec, cumspec, ebins)`; the returned sample also carries
the realized flux scalar `sum(e)*erg_per_keV/t_exp/area`. -/
def Spectrum.generate_energies (alg : RNGAlg) (s : Spectrum) (t_exp area : ℚ)
    (seed : ℕ) : ℕ × List ℚ × ℚ :=
  let rate := area * s.total_flux
  let n_ph := (alg.poisson seed (t_exp * rate)).1
  let g1 := (alg.poisson seed (t_exp * rate)).2
  let randvec := sortAsc (alg.uniform g1 n_ph).1
  let e := randvec.map (fun r => npInterp r s.cumspec s.ebins)
  (n_ph, e, e.sum * erg_per_keV / t_exp / area)

/-! ## Basic facts about the embedding -/

theorem mkSpectrum_ebins (e f : List ℚ) (k : SpecKind) : (mkSpectrum e f k).ebins = e := rfl

theorem mkSpectrum_flux (e f : List ℚ) (k : SpecKind) : (mkSpectrum e f k).flux = f := rfl

theorem mkSpectrum_kind (e f : List ℚ) (k : SpecKind) : (mkSpectrum e f k).kind = k := rfl

theorem emidOf_length (e : List ℚ) : (emidOf e).length = e.length - 1 := by
  simp [emidOf]

/-! ## C3: stale caches after in-place addition -/

/-- Operands for the `__iadd__` cache-staleness evaluation. -/
def c3a : Spectrum := mkSpectrum [0, 1, 2] [1, 0] SpecKind.plain

/-- Second operand, matching `c3a`'s binning and units. -/
def c3b : Spectrum := mkSpectrum [0, 1, 2] [0, 1] SpecKind.plain

/-- C3 (failing evaluation): `a += b` (`Spectrum.__iadd__`) updates the flux
in place but — unlike every other mutating operation of the class — does not
call `_compute_total_flux`, so the caller observes a stale
`total_flux` (still 1 while `Σ flux·width` is 2) and a stale cumulative
distribution (still `[0,1,1]` while the cumulative sum of the new
`flux·width`, prefixed with 0 and normalized, is `[0,1/2,1]`). -/
theorem iadd_stale_cache_bug :
    ∃ t : Spectrum, Spectrum.iadd c3a c3b = Except.ok t ∧
      t.flux = [1, 1] ∧
      t.total_flux = 1 ∧ (fluxDe t).sum = 2 ∧
      t.cumspec = [0, 1, 1] ∧
      ((0 :: cumsum (fluxDe t)).map
        (· / ((0 : ℚ) :: cumsum (fluxDe t)).getLastD 0)) = [0, 1/2, 1] := by
  refine ⟨{ c3a with flux := [1, 1] }, ?_, ?_, ?_, ?_, ?_, ?_⟩ <;>
    norm_num [c3a, c3b, Spectrum.iadd, Spectrum.check_binning_units, Spectrum.nbins,
      npIscloseAll, npIsclose, mkSpectrum, Spectrum.compute_total_flux, fluxDe, deOf,
      emidOf, cumsum, cumsumGo]

/-! ## C9: `rescale_flux` with an unrecognized `flux_type` -/

/-- C9: for every spectrum and every `flux_type` other than `"photons"` and
`"energy"`, `rescale_flux` raises (`UnboundLocalError` on the never-assigned
local `f`) — the band integral is never computed and no rescaling (silent or
defaulted) happens. -/
theorem rescale_flux_bad_flux_type (s : Spectrum) (new_flux : ℚ)
    (emin emax : Option ℚ) (flux_type : String)
    (h1 : flux_type ≠ "photons") (h2 : flux_type ≠ "energy") :
    s.rescale_flux new_flux emin emax flux_type = Except.error SpecError.unboundLocal := by
  simp [Spectrum.rescale_flux, h1, h2]

/-- Input spectrum for the C9 witness. -/
def c9spec : Spectrum := mkSpectrum [1, 2] [1] SpecKind.plain

/-- C9 witness: the misspelled flux type `"ergs"` is rejected on a concrete
spectrum. -/
theorem rescale_flux_bad_flux_type_witness :
    ("ergs" ≠ "photons") ∧ ("ergs" ≠ "energy") ∧
      Spectrum.rescale_flux c9spec 5 none none "ergs"
        = Except.error SpecError.unboundLocal :=
  ⟨by decide, by decide,
    rescale_flux_bad_flux_type c9spec 5 none none "ergs" (by decide) (by decide)⟩

/-! ## C10: `new_spec_from_band` and the unit tags of its results -/

/-- C10: the base `new_spec_from_band` — inherited unchanged by
`CountRateSpectrum` — always constructs a plain `Spectrum`, so a count-rate
spectrum's band subset carries the photon-flux-density unit tag, not the
count-rate tag; the `ConvolvedSpectrum` override instead returns a
`ConvolvedSpectrum` bound to the same ARF object. -/
theorem new_spec_from_band_kinds (s : Spectrum) (emin emax : ℚ) :
    (s.kind = SpecKind.countRate →
      (s.new_spec_from_band emin emax).kind = SpecKind.plain ∧
      unitsOf (s.new_spec_from_band emin emax).kind = "photon/(cm**2*s*keV)" ∧
      unitsOf s.kind = "photon/(s*keV)") ∧
    (∀ arf : ARF, s.kind = SpecKind.convolved arf →
      (s.new_spec_from_band emin emax).kind = SpecKind.convolved arf) := by
  constructor
  · intro h
    simp [Spectrum.new_spec_from_band, h, mkSpectrum_kind, unitsOf]
  · intro arf h
    simp [Spectrum.new_spec_from_band, h, mkSpectrum_kind]

/-- A count-rate spectrum for the C10 witness. -/
def c10cr : Spectrum := mkSpectrum [1, 2, 3] [1, 1] SpecKind.countRate

/-- A concrete ARF for the C10 witness. -/
def c10arf : ARF := ⟨fun _ => 100⟩

/-- A convolved spectrum for the C10 witness. -/
def c10cv : Spectrum := mkSpectrum [1, 2, 3] [1, 1] (SpecKind.convolved c10arf)

/-- C10 witness: on concrete inputs, the band subset of a count-rate
spectrum is a plain flux-domain `Spectrum`, and the band subset of a
convolved spectrum is convolved with the same ARF. -/
theorem new_spec_from_band_kinds_witness :
    ((c10cr.new_spec_from_band 1 2).kind = SpecKind.plain ∧
      unitsOf ((c10cr.new_spec_from_band 1 2).kind) = "photon/(cm**2*s*keV)" ∧
      unitsOf c10cr.kind = "photon/(s*keV)") ∧
    (c10cv.new_spec_from_band 1 2).kind = SpecKind.convolved c10arf :=
  ⟨(new_spec_from_band_kinds c10cr 1 2).1 rfl,
    (new_spec_from_band_kinds c10cv 1 2).2 c10arf rfl⟩

/-! ## C8: determinism of `generate_energies` -/

/-- C8: `generate_energies` draws all randomness from the passed generator
(`prng.poisson`, `prng.uniform`); with the generator modelled as a pure
state machine (`RNGAlg`, faithful to `numpy.random.RandomState` streams),
two runs from equal seeds on the same spectrum, exposure and area produce
the identical photon count and the identical energy sequence. -/
theorem generate_energies_deterministic (alg : RNGAlg) (s : Spectrum)
    (t_exp area : ℚ) (seed1 seed2 : ℕ) (h : seed1 = seed2) :
    (Spectrum.generate_energies alg s t_exp area seed1).1
      = (Spectrum.generate_energies alg s t_exp area seed2).1 ∧
    (Spectrum.generate_energies alg s t_exp area seed1).2.1
      = (Spectrum.generate_energies alg s t_exp area seed2).2.1 := by
  rw [h]
  exact ⟨rfl, rfl⟩

/-- A concrete deterministic generator for the C8 witness. -/
def c8alg : RNGAlg :=
  { poisson := fun st m => (st % 3 + ⌈m⌉.toNat % 2, st + 1)
    uniform := fun st n => ((List.range n).map (fun i => ((i : ℚ) + 1) / (n + 1)), st + n) }

/-- A concrete spectrum for the C8 witness. -/
def c8spec : Spectrum := mkSpectrum [1, 2, 3] [3, 1] SpecKind.plain

/-- C8 witness: two runs with the identical seed 7, `t_exp = 1000`,
`area = 100` on a concrete spectrum agree in photon count and energy list. -/
theorem generate_energies_deterministic_witness :
    (Spectrum.generate_energies c8alg c8spec 1000 100 7).1
      = (Spectrum.generate_energies c8alg c8spec 1000 100 7).1 ∧
    (Spectrum.generate_energies c8alg c8spec 1000 100 7).2.1
      = (Spectrum.generate_energies c8alg c8spec 1000 100 7).2.1 :=
  generate_energies_deterministic c8alg c8spec 1000 100 7 7 rfl

/-! ## C2: convolve/deconvolve round trip -/

/-- Dividing the convolved flux by the same (everywhere nonzero) area array
recovers the original flux exactly. -/
theorem deconvolveFlux_zipWith_mul (f a : List ℚ) (hlen : f.length ≤ a.length)
    (hpos : ∀ x ∈ a, 0 < x) :
    deconvolveFlux (List.zipWith (· * ·) f a) a = f := by
  induction f generalizing a with
  | nil => simp [deconvolveFlux]
  | cons x xs ih =>
    cases a with
    | nil => simp at hlen
    | cons y ys =>
      have hy : (0 : ℚ) < y := hpos y (List.mem_cons_self y ys)
      have hy0 : y ≠ 0 := ne_of_gt hy
      simp only [List.zipWith_cons_cons, deconvolveFlux, List.zip_cons_cons, List.map_cons]
      congr 1
      · simp [fdiv, hy0, nanToNum, mul_div_assoc, div_self hy0]
      · exact ih ys (by simpa using hlen) (fun z hz => hpos z (List.mem_cons_of_mem y hz))

/-- C2: for a flux-domain spectrum `s` and a response whose interpolated
effective area is strictly positive at every bin midpoint of `s`,
`deconvolve(convolve(s, arf))` returns a flux-domain spectrum with the same
edges and exactly the same flux array (exact arithmetic; in floating point
this is the "within tolerance" statement). -/
theorem convolve_deconvolve_roundtrip (s : Spectrum) (arf : ARF)
    (hkind : s.kind = SpecKind.plain)
    (hlen : s.flux.length + 1 = s.ebins.length)
    (hpos : ∀ m ∈ emidOf s.ebins, 0 < arf.interpolate_area m) :
    ∃ t : Spectrum,
      (ConvolvedSpectrum.convolve s arf).deconvolve = some t ∧
      t.ebins = s.ebins ∧ t.flux = s.flux ∧ t.kind = SpecKind.plain := by
  have hepos : ∀ x ∈ (emidOf s.ebins).map arf.interpolate_area, 0 < x := by
    intro x hx
    rcases List.mem_map.mp hx with ⟨m, hm, rfl⟩
    exact hpos m hm
  have hlen2 : s.flux.length ≤ ((emidOf s.ebins).map arf.interpolate_area).length := by
    rw [List.length_map, emidOf_length]
    omega
  refine ⟨mkSpectrum s.ebins s.flux SpecKind.plain, ?_, rfl, rfl, rfl⟩
  show Spectrum.deconvolve (mkSpectrum s.ebins _ (SpecKind.convolved arf)) = _
  rw [Spectrum.deconvolve]
  simp only [mkSpectrum_kind, mkSpectrum_ebins, mkSpectrum_flux]
  rw [deconvolveFlux_zipWith_mul _ _ hlen2 hepos]

/-- A flat-response ARF for the C2 witness. -/
def c2arf : ARF := ⟨fun _ => 3⟩

/-- A concrete flux-domain spectrum for the C2 witness. -/
def c2spec : Spectrum := mkSpectrum [1, 2, 3] [5, 7] SpecKind.plain

/-- C2 witness: the round trip is exact on a concrete spectrum and a
concrete everywhere-positive response. -/
theorem convolve_deconvolve_roundtrip_witness :
    ∃ t : Spectrum,
      (ConvolvedSpectrum.convolve c2spec c2arf).deconvolve = some t ∧
      t.ebins = c2spec.ebins ∧ t.flux = c2spec.flux ∧ t.kind = SpecKind.plain :=
  convolve_deconvolve_roundtrip c2spec c2arf rfl (by decide)
    (by intro m _; norm_num [c2arf])

/-! ## C1: `deconvolve` and the actual `np.nan_to_num` replacements -/

/-- An ARF whose interpolated area vanishes everywhere, for the C1
counterexample. -/
def c1arf : ARF := ⟨fun _ => 0⟩

/-- A `ConvolvedSpectrum` with nonzero count-rate flux bound to the
zero-area ARF (the constructor accepts any flux/ARF pair). -/
def c1spec : Spectrum := mkSpectrum [1, 2] [1] (SpecKind.convolved c1arf)

/-- C1 counterexample: on a convolved spectrum with count-rate 1 in a bin
where the interpolated area is 0, the quotient is `+inf` and
`np.nan_to_num` replaces it with the **largest finite double**
(≈ 1.798e308), not with zero — contradicting the claim that any
division-by-zero bin comes out exactly zero. -/
theorem deconvolve_zero_area_counterexample :
    (Spectrum.deconvolve c1spec).map Spectrum.flux = some [maxFloat] ∧
      maxFloat ≠ 0 := by
  constructor
  · rfl
  · norm_num [maxFloat]

/-- C1 (amended): `deconvolve` returns a flux-domain spectrum whose flux is
`np.nan_to_num(flux / area)` bin by bin: a finite quotient is kept, a `0/0`
bin (NaN) becomes exactly zero, and a `±x/0` bin with `x ≠ 0` (±inf)
becomes `±maxFloat`.  Every returned value is a finite rational — no NaN or
infinity survives into the result. -/
theorem deconvolve_nan_to_num_spec (s : Spectrum) (arf : ARF)
    (h : s.kind = SpecKind.convolved arf) :
    ∃ t : Spectrum, s.deconvolve = some t ∧ t.kind = SpecKind.plain ∧
      t.ebins = s.ebins ∧
      List.Forall₂ (fun (o : ℚ) (p : ℚ × ℚ) =>
          (p.2 ≠ 0 → o = p.1 / p.2) ∧
          (p.2 = 0 → p.1 = 0 → o = 0) ∧
          (p.2 = 0 → 0 < p.1 → o = maxFloat) ∧
          (p.2 = 0 → p.1 < 0 → o = -maxFloat))
        t.flux (s.flux.zip ((emidOf s.ebins).map arf.interpolate_area)) := by
  refine ⟨mkSpectrum s.ebins
    (deconvolveFlux s.flux ((emidOf s.ebins).map arf.interpolate_area))
    SpecKind.plain, ?_, rfl, rfl, ?_⟩
  · rw [Spectrum.deconvolve, h]
  · rw [mkSpectrum_flux, deconvolveFlux, List.forall₂_map_left_iff, List.forall₂_same]
    intro p _
    by_cases hz : p.2 = 0
    · refine ⟨fun hc => absurd hz hc, ?_, ?_, ?_⟩
      · intro _ h1
        simp [fdiv, hz, h1, nanToNum]
      · intro _ h1
        simp [fdiv, hz, h1, not_lt.mpr h1.le, nanToNum]
      · intro _ h1
        simp [fdiv, hz, h1, not_lt.mpr h1.le, nanToNum, asymm h1]
    · refine ⟨fun _ => ?_, fun hc => absurd hc hz, fun hc => absurd hc hz,
        fun hc => absurd hc hz⟩
      simp [fdiv, hz, nanToNum]

/-- ARF for the C1 witness: zero area below 3 keV, area 2 above. -/
def c1warf : ARF := ⟨fun e => if e < 3 then 0 else 2⟩

/-- A convolved spectrum with a negative count-rate bin, a `0/0` bin and a
finite bin, for the C1 witness. -/
def c1wspec : Spectrum := mkSpectrum [1, 2, 3, 4] [-3, 0, 5] (SpecKind.convolved c1warf)

/-- C1 witness: the amended statement instantiated on a concrete convolved
spectrum exercising the -inf, NaN and finite cases. -/
theorem deconvolve_nan_to_num_spec_witness :
    ∃ t : Spectrum, c1wspec.deconvolve = some t ∧ t.kind = SpecKind.plain ∧
      t.ebins = c1wspec.ebins ∧
      List.Forall₂ (fun (o : ℚ) (p : ℚ × ℚ) =>
          (p.2 ≠ 0 → o = p.1 / p.2) ∧
          (p.2 = 0 → p.1 = 0 → o = 0) ∧
          (p.2 = 0 → 0 < p.1 → o = maxFloat) ∧
          (p.2 = 0 → p.1 < 0 → o = -maxFloat))
        t.flux (c1wspec.flux.zip ((emidOf c1wspec.ebins).map c1warf.interpolate_area)) :=
  deconvolve_nan_to_num_spec c1wspec c1warf rfl

/-! ## C4: add/subtract require identical binning and units -/

/-- C4: `a + b` / `a - b` raise exactly when the edge arrays differ in
length or beyond `np.isclose` tolerance, or the `_units` tags differ;
otherwise they return a brand-new spectrum over `a`'s edges whose flux is
the element-wise sum/difference (the operands are values here — the Python
methods likewise never write to `self` or `other`).  The two hypotheses are
the class invariant `len(flux) = len(ebins) - 1` established by
`__init__`. -/
theorem add_sub_binning_units (a b : Spectrum)
    (ha : a.flux.length + 1 = a.ebins.length)
    (hb : b.flux.length + 1 = b.ebins.length) :
    ((∃ err, a.add b = Except.error err) ↔
      a.ebins.length ≠ b.ebins.length ∨ ¬ npIscloseAll a.ebins b.ebins ∨
        unitsOf a.kind ≠ unitsOf b.kind) ∧
    ((∃ err, a.sub b = Except.error err) ↔
      a.ebins.length ≠ b.ebins.length ∨ ¬ npIscloseAll a.ebins b.ebins ∨
        unitsOf a.kind ≠ unitsOf b.kind) ∧
    (a.ebins.length = b.ebins.length → npIscloseAll a.ebins b.ebins →
      unitsOf a.kind = unitsOf b.kind →
      a.add b = Except.ok (mkSpectrum a.ebins (List.zipWith (· + ·) a.flux b.flux) a.kind) ∧
      a.sub b = Except.ok (mkSpectrum a.ebins (List.zipWith (· - ·) a.flux b.flux) a.kind)) := by
  have hnb : a.nbins = b.nbins ↔ a.ebins.length = b.ebins.length := by
    rw [Spectrum.nbins, Spectrum.nbins, emidOf_length, emidOf_length]
    omega
  by_cases hL : a.ebins.length = b.ebins.length
  · by_cases hC : npIscloseAll a.ebins b.ebins
    · have hcond1 : ¬(a.nbins ≠ b.nbins ∨ ¬ npIscloseAll a.ebins b.ebins) := by
        push_neg
        exact ⟨hnb.mpr hL, hC⟩
      by_cases hU : unitsOf a.kind = unitsOf b.kind
      · have hok : a.check_binning_units b = Except.ok () := by
          rw [Spectrum.check_binning_units, if_neg hcond1, if_neg (by simp [hU])]
        refine ⟨?_, ?_, fun _ _ _ => ⟨?_, ?_⟩⟩ <;>
          simp [Spectrum.add, Spectrum.sub, bind, Except.bind, pure, Except.pure, hok, hL, hC, hU]
      · have herr : a.check_binning_units b = Except.error SpecError.unitsNotSame := by
          rw [Spectrum.check_binning_units, if_neg hcond1, if_pos hU]
        refine ⟨?_, ?_, fun _ _ hu => absurd hu hU⟩ <;>
          simp [Spectrum.add, Spectrum.sub, bind, Except.bind, pure, Except.pure, herr, hL, hC, hU]
    · have herr : a.check_binning_units b = Except.error SpecError.binningNotSame := by
        rw [Spectrum.check_binning_units, if_pos (Or.inr hC)]
      refine ⟨?_, ?_, fun _ hc _ => absurd hc hC⟩ <;>
        simp [Spectrum.add, Spectrum.sub, bind, Except.bind, pure, Except.pure, herr, hC]
  · have herr : a.check_binning_units b = Except.error SpecError.binningNotSame := by
      rw [Spectrum.check_binning_units,
        if_pos (Or.inl (fun hcon => hL (hnb.mp hcon)))]
    refine ⟨?_, ?_, fun hc _ _ => absurd hc hL⟩ <;>
      simp [Spectrum.add, Spectrum.sub, bind, Except.bind, pure, Except.pure, herr, hL]

/-- First operand for the C4 witness. -/
def c4a : Spectrum := mkSpectrum [1, 2, 3] [5, 7] SpecKind.plain

/-- Second operand for the C4 witness, same binning and units. -/
def c4b : Spectrum := mkSpectrum [1, 2, 3] [2, 4] SpecKind.plain

/-- C4 witness: on two concrete compatible spectra, no error is signalled
and the results are the element-wise sum and difference. -/
theorem add_sub_binning_units_witness :
    (¬(c4a.ebins.length ≠ c4b.ebins.length ∨ ¬ npIscloseAll c4a.ebins c4b.ebins ∨
        unitsOf c4a.kind ≠ unitsOf c4b.kind)) ∧
    c4a.add c4b = Except.ok (mkSpectrum c4a.ebins (List.zipWith (· + ·) c4a.flux c4b.flux) c4a.kind) ∧
    c4a.sub c4b = Except.ok (mkSpectrum c4a.ebins (List.zipWith (· - ·) c4a.flux c4b.flux) c4a.kind) := by
  have h := (add_sub_binning_units c4a c4b rfl rfl).2.2 rfl
    (by norm_num [c4a, c4b, npIscloseAll, npIsclose, mkSpectrum, Spectrum.compute_total_flux])
    rfl
  refine ⟨?_, h.1, h.2⟩
  push_neg
  exact ⟨rfl,
    by norm_num [c4a, c4b, npIscloseAll, npIsclose, mkSpectrum, Spectrum.compute_total_flux],
    rfl⟩

set_option maxHeartbeats 2000000 in
/-- Interval decomposition of `searchsorted` on the wabs boundary table:
for positive `E`, exactly one of the 15 half-open segments
`(emax[k-1], emax[k]]` (the last unbounded above) contains `E`, and
`countLt wabsEmax E` is the corresponding insertion index `k`. -/
theorem wabs_cases (E : ℚ) (hE : 0 < E) :
    (E ≤ 1/10 ∧ countLt wabsEmax E = 1) ∨
    (1/10 < E ∧ E ≤ 284/1000 ∧ countLt wabsEmax E = 2) ∨
    (284/1000 < E ∧ E ≤ 4/10 ∧ countLt wabsEmax E = 3) ∨
    (4/10 < E ∧ E ≤ 532/1000 ∧ countLt wabsEmax E = 4) ∨
    (532/1000 < E ∧ E ≤ 707/1000 ∧ countLt wabsEmax E = 5) ∨
    (707/1000 < E ∧ E ≤ 867/1000 ∧ countLt wabsEmax E = 6) ∨
    (867/1000 < E ∧ E ≤ 1303/1000 ∧ countLt wabsEmax E = 7) ∨
    (1303/1000 < E ∧ E ≤ 184/100 ∧ countLt wabsEmax E = 8) ∨
    (184/100 < E ∧ E ≤ 2471/1000 ∧ countLt wabsEmax E = 9) ∨
    (2471/1000 < E ∧ E ≤ 321/100 ∧ countLt wabsEmax E = 10) ∨
    (321/100 < E ∧ E ≤ 4038/1000 ∧ countLt wabsEmax E = 11) ∨
    (4038/1000 < E ∧ E ≤ 7111/1000 ∧ countLt wabsEmax E = 12) ∨
    (7111/1000 < E ∧ E ≤ 8331/1000 ∧ countLt wabsEmax E = 13) ∨
    (8331/1000 < E ∧ E ≤ 10 ∧ countLt wabsEmax E = 14) ∨
    (10 < E ∧ countLt wabsEmax E = 15) := by
  rcases le_or_lt E (1/10 : ℚ) with h1 | h1
  · refine Or.inl ⟨h1, ?_⟩
    have n1 : ¬((1/10 : ℚ) < E) := not_lt.mpr (by linarith)
    have n2 : ¬((284/1000 : ℚ) < E) := not_lt.mpr (by linarith)
    have n3 : ¬((4/10 : ℚ) < E) := not_lt.mpr (by linarith)
    have n4 : ¬((532/1000 : ℚ) < E) := not_lt.mpr (by linarith)
    have n5 : ¬((707/1000 : ℚ) < E) := not_lt.mpr (by linarith)
    have n6 : ¬((867/1000 : ℚ) < E) := not_lt.mpr (by linarith)
    have n7 : ¬((1303/1000 : ℚ) < E) := not_lt.mpr (by linarith)
    have n8 : ¬((184/100 : ℚ) < E) := not_lt.mpr (by linarith)
    have n9 : ¬((2471/1000 : ℚ) < E) := not_lt.mpr (by linarith)
    have n10 : ¬((321/100 : ℚ) < E) := not_lt.mpr (by linarith)
    have n11 : ¬((4038/1000 : ℚ) < E) := not_lt.mpr (by linarith)
    have n12 : ¬((7111/1000 : ℚ) < E) := not_lt.mpr (by linarith)
    have n13 : ¬((8331/1000 : ℚ) < E) := not_lt.mpr (by linarith)
    have n14 : ¬((10 : ℚ) < E) := not_lt.mpr (by linarith)
    simp only [countLt, wabsEmax]
    rw [if_pos hE, if_neg n1, if_neg n2, if_neg n3, if_neg n4, if_neg n5, if_neg n6, if_neg n7, if_neg n8, if_neg n9, if_neg n10, if_neg n11, if_neg n12, if_neg n13, if_neg n14]
  rcases le_or_lt E (284/1000 : ℚ) with h2 | h2
  · refine Or.inr (Or.inl ⟨h1, h2, ?_⟩)
    have p1 : (1/10 : ℚ) < E := by linarith
    have n2 : ¬((284/1000 : ℚ) < E) := not_lt.mpr (by linarith)
    have n3 : ¬((4/10 : ℚ) < E) := not_lt.mpr (by linarith)
    have n4 : ¬((532/1000 : ℚ) < E) := not_lt.mpr (by linarith)
    have n5 : ¬((707/1000 : ℚ) < E) := not_lt.mpr (by linarith)
    have n6 : ¬((867/1000 : ℚ) < E) := not_lt.mpr (by linarith)
    have n7 : ¬((1303/1000 : ℚ) < E) := not_lt.mpr (by linarith)
    have n8 : ¬((184/100 : ℚ) < E) := not_lt.mpr (by linarith)
    have n9 : ¬((2471/1000 : ℚ) < E) := not_lt.mpr (by linarith)
    have n10 : ¬((321/100 : ℚ) < E) := not_lt.mpr (by linarith)
    have n11 : ¬((4038/1000 : ℚ) < E) := not_lt.mpr (by linarith)
    have n12 : ¬((7111/1000 : ℚ) < E) := not_lt.mpr (by linarith)
    have n13 : ¬((8331/1000 : ℚ) < E) := not_lt.mpr (by linarith)
    have n14 : ¬((10 : ℚ) < E) := not_lt.mpr (by linarith)
    simp only [countLt, wabsEmax]
    rw [if_pos hE, if_pos p1, if_neg n2, if_neg n3, if_neg n4, if_neg n5, if_neg n6, if_neg n7, if_neg n8, if_neg n9, if_neg n10, if_neg n11, if_neg n12, if_neg n13, if_neg n14]
  rcases le_or_lt E (4/10 : ℚ) with h3 | h3
  · refine Or.inr (Or.inr (Or.inl ⟨h2, h3, ?_⟩))
    have p1 : (1/10 : ℚ) < E := by linarith
    have p2 : (284/1000 : ℚ) < E := by linarith
    have n3 : ¬((4/10 : ℚ) < E) := not_lt.mpr (by linarith)
    have n4 : ¬((532/1000 : ℚ) < E) := not_lt.mpr (by linarith)
    have n5 : ¬((707/1000 : ℚ) < E) := not_lt.mpr (by linarith)
    have n6 : ¬((867/1000 : ℚ) < E) := not_lt.mpr (by linarith)
    have n7 : ¬((1303/1000 : ℚ) < E) := not_lt.mpr (by linarith)
    have n8 : ¬((184/100 : ℚ) < E) := not_lt.mpr (by linarith)
    have n9 : ¬((2471/1000 : ℚ) < E) := not_lt.mpr (by linarith)
    have n10 : ¬((321/100 : ℚ) < E) := not_lt.mpr (by linarith)
    have n11 : ¬((4038/1000 : ℚ) < E) := not_lt.mpr (by linarith)
    have n12 : ¬((7111/1000 : ℚ) < E) := not_lt.mpr (by linarith)
    have n13 : ¬((8331/1000 : ℚ) < E) := not_lt.mpr (by linarith)
    have n14 : ¬((10 : ℚ) < E) := not_lt.mpr (by linarith)
    simp only [countLt, wabsEmax]
    rw [if_pos hE, if_pos p1, if_pos p2, if_neg n3, if_neg n4, if_neg n5, if_neg n6, if_neg n7, if_neg n8, if_neg n9, if_neg n10, if_neg n11, if_neg n12, if_neg n13, if_neg n14]
  rcases le_or_lt E (532/1000 : ℚ) with h4 | h4
  · refine Or.inr (Or.inr (Or.inr (Or.inl ⟨h3, h4, ?_⟩)))
    have p1 : (1/10 : ℚ) < E := by linarith
    have p2 : (284/1000 : ℚ) < E := by linarith
    have p3 : (4/10 : ℚ) < E := by linarith
    have n4 : ¬((532/1000 : ℚ) < E) := not_lt.mpr (by linarith)
    have n5 : ¬((707/1000 : ℚ) < E) := not_lt.mpr (by linarith)
    have n6 : ¬((867/1000 : ℚ) < E) := not_lt.mpr (by linarith)
    have n7 : ¬((1303/1000 : ℚ) < E) := not_lt.mpr (by linarith)
    have n8 : ¬((184/100 : ℚ) < E) := not_lt.mpr (by linarith)
    have n9 : ¬((2471/1000 : ℚ) < E) := not_lt.mpr (by linarith)
    have n10 : ¬((321/100 : ℚ) < E) := not_lt.mpr (by linarith)
    have n11 : ¬((4038/1000 : ℚ) < E) := not_lt.mpr (by linarith)
    have n12 : ¬((7111/1000 : ℚ) < E) := not_lt.mpr (by linarith)
    have n13 : ¬((8331/1000 : ℚ) < E) := not_lt.mpr (by linarith)
    have n14 : ¬((10 : ℚ) < E) := not_lt.mpr (by linarith)
    simp only [countLt, wabsEmax]
    rw [if_pos hE, if_pos p1, if_pos p2, if_pos p3, if_neg n4, if_neg n5, if_neg n6, if_neg n7, if_neg n8, if_neg n9, if_neg n10, if_neg n11, if_neg n12, if_neg n13, if_neg n14]
  rcases le_or_lt E (707/1000 : ℚ) with h5 | h5
  · refine Or.inr (Or.inr (Or.inr (Or.inr (Or.inl ⟨h4, h5, ?_⟩))))
    have p1 : (1/10 : ℚ) < E := by linarith
    have p2 : (284/1000 : ℚ) < E := by linarith
    have p3 : (4/10 : ℚ) < E := by linarith
    have p4 : (532/1000 : ℚ) < E := by linarith
    have n5 : ¬((707/1000 : ℚ) < E) := not_lt.mpr (by linarith)
    have n6 : ¬((867/1000 : ℚ) < E) := not_lt.mpr (by linarith)
    have n7 : ¬((1303/1000 : ℚ) < E) := not_lt.mpr (by linarith)
    have n8 : ¬((184/100 : ℚ) < E) := not_lt.mpr (by linarith)
    have n9 : ¬((2471/1000 : ℚ) < E) := not_lt.mpr (by linarith)
    have n10 : ¬((321/100 : ℚ) < E) := not_lt.mpr (by linarith)
    have n11 : ¬((4038/1000 : ℚ) < E) := not_lt.mpr (by linarith)
    have n12 : ¬((7111/1000 : ℚ) < E) := not_lt.mpr (by linarith)
    have n13 : ¬((8331/1000 : ℚ) < E) := not_lt.mpr (by linarith)
    have n14 : ¬((10 : ℚ) < E) := not_lt.mpr (by linarith)
    simp only [countLt, wabsEmax]
    rw [if_pos hE, if_pos p1, if_pos p2, if_pos p3, if_pos p4, if_neg n5, if_neg n6, if_neg n7, if_neg n8, if_neg n9, if_neg n10, if_neg n11, if_neg n12, if_neg n13, if_neg n14]
  rcases le_or_lt E (867/1000 : ℚ) with h6 | h6
  · refine Or.inr (Or.inr (Or.inr (Or.inr (Or.inr (Or.inl ⟨h5, h6, ?_⟩)))))
    have p1 : (1/10 : ℚ) < E := by linarith
    have p2 : (284/1000 : ℚ) < E := by linarith
    have p3 : (4/10 : ℚ) < E := by linarith
    have p4 : (532/1000 : ℚ) < E := by linarith
    have p5 : (707/1000 : ℚ) < E := by linarith
    have n6 : ¬((867/1000 : ℚ) < E) := not_lt.mpr (by linarith)
    have n7 : ¬((1303/1000 : ℚ) < E) := not_lt.mpr (by linarith)
    have n8 : ¬((184/100 : ℚ) < E) := not_lt.mpr (by linarith)
    have n9 : ¬((2471/1000 : ℚ) < E) := not_lt.mpr (by linarith)
    have n10 : ¬((321/100 : ℚ) < E) := not_lt.mpr (by linarith)
    have n11 : ¬((4038/1000 : ℚ) < E) := not_lt.mpr (by linarith)
    have n12 : ¬((7111/1000 : ℚ) < E) := not_lt.mpr (by linarith)
    have n13 : ¬((8331/1000 : ℚ) < E) := not_lt.mpr (by linarith)
    have n14 : ¬((10 : ℚ) < E) := not_lt.mpr (by linarith)
    simp only [countLt, wabsEmax]
    rw [if_pos hE, if_pos p1, if_pos p2, if_pos p3, if_pos p4, if_pos p5, if_neg n6, if_neg n7, if_neg n8, if_neg n9, if_neg n10, if_neg n11, if_neg n12, if_neg n13, if_neg n14]
  rcases le_or_lt E (1303/1000 : ℚ) with h7 | h7
  · refine Or.inr (Or.inr (Or.inr (Or.inr (Or.inr (Or.inr (Or.inl ⟨h6, h7, ?_⟩))))))
    have p1 : (1/10 : ℚ) < E := by linarith
    have p2 : (284/1000 : ℚ) < E := by linarith
    have p3 : (4/10 : ℚ) < E := by linarith
    have p4 : (532/1000 : ℚ) < E := by linarith
    have p5 : (707/1000 : ℚ) < E := by linarith
    have p6 : (867/1000 : ℚ) < E := by linarith
    have n7 : ¬((1303/1000 : ℚ) < E) := not_lt.mpr (by linarith)
    have n8 : ¬((184/100 : ℚ) < E) := not_lt.mpr (by linarith)
    have n9 : ¬((2471/1000 : ℚ) < E) := not_lt.mpr (by linarith)
    have n10 : ¬((321/100 : ℚ) < E) := not_lt.mpr (by linarith)
    have n11 : ¬((4038/1000 : ℚ) < E) := not_lt.mpr (by linarith)
    have n12 : ¬((7111/1000 : ℚ) < E) := not_lt.mpr (by linarith)
    have n13 : ¬((8331/1000 : ℚ) < E) := not_lt.mpr (by linarith)
    have n14 : ¬((10 : ℚ) < E) := not_lt.mpr (by linarith)
    simp only [countLt, wabsEmax]
    rw [if_pos hE, if_pos p1, if_pos p2, if_pos p3, if_pos p4, if_pos p5, if_pos p6, if_neg n7, if_neg n8, if_neg n9, if_neg n10, if_neg n11, if_neg n12, if_neg n13, if_neg n14]
  rcases le_or_lt E (184/100 : ℚ) with h8 | h8
  · refine Or.inr (Or.inr (Or.inr (Or.inr (Or.inr (Or.inr (Or.inr (Or.inl ⟨h7, h8, ?_⟩)))))))
    have p1 : (1/10 : ℚ) < E := by linarith
    have p2 : (284/1000 : ℚ) < E := by linarith
    have p3 : (4/10 : ℚ) < E := by linarith
    have p4 : (532/1000 : ℚ) < E := by linarith
    have p5 : (707/1000 : ℚ) < E := by linarith
    have p6 : (867/1000 : ℚ) < E := by linarith
    have p7 : (1303/1000 : ℚ) < E := by linarith
    have n8 : ¬((184/100 : ℚ) < E) := not_lt.mpr (by linarith)
    have n9 : ¬((2471/1000 : ℚ) < E) := not_lt.mpr (by linarith)
    have n10 : ¬((321/100 : ℚ) < E) := not_lt.mpr (by linarith)
    have n11 : ¬((4038/1000 : ℚ) < E) := not_lt.mpr (by linarith)
    have n12 : ¬((7111/1000 : ℚ) < E) := not_lt.mpr (by linarith)
    have n13 : ¬((8331/1000 : ℚ) < E) := not_lt.mpr (by linarith)
    have n14 : ¬((10 : ℚ) < E) := not_lt.mpr (by linarith)
    simp only [countLt, wabsEmax]
    rw [if_pos hE, if_pos p1, if_pos p2, if_pos p3, if_pos p4, if_pos p5, if_pos p6, if_pos p7, if_neg n8, if_neg n9, if_neg n10, if_neg n11, if_neg n12, if_neg n13, if_neg n14]
  rcases le_or_lt E (2471/1000 : ℚ) with h9 | h9
  · refine Or.inr (Or.inr (Or.inr (Or.inr (Or.inr (Or.inr (Or.inr (Or.inr (Or.inl ⟨h8, h9, ?_⟩))))))))
    have p1 : (1/10 : ℚ) < E := by linarith
    have p2 : (284/1000 : ℚ) < E := by linarith
    have p3 : (4/10 : ℚ) < E := by linarith
    have p4 : (532/1000 : ℚ) < E := by linarith
    have p5 : (707/1000 : ℚ) < E := by linarith
    have p6 : (867/1000 : ℚ) < E := by linarith
    have p7 : (1303/1000 : ℚ) < E := by linarith
    have p8 : (184/100 : ℚ) < E := by linarith
    have n9 : ¬((2471/1000 : ℚ) < E) := not_lt.mpr (by linarith)
    have n10 : ¬((321/100 : ℚ) < E) := not_lt.mpr (by linarith)
    have n11 : ¬((4038/1000 : ℚ) < E) := not_lt.mpr (by linarith)
    have n12 : ¬((7111/1000 : ℚ) < E) := not_lt.mpr (by linarith)
    have n13 : ¬((8331/1000 : ℚ) < E) := not_lt.mpr (by linarith)
    have n14 : ¬((10 : ℚ) < E) := not_lt.mpr (by linarith)
    simp only [countLt, wabsEmax]
    rw [if_pos hE, if_pos p1, if_pos p2, if_pos p3, if_pos p4, if_pos p5, if_pos p6, if_pos p7, if_pos p8, if_neg n9, if_neg n10, if_neg n11, if_neg n12, if_neg n13, if_neg n14]
  rcases le_or_lt E (321/100 : ℚ) with h10 | h10
  · refine Or.inr (Or.inr (Or.inr (Or.inr (Or.inr (Or.inr (Or.inr (Or.inr (Or.inr (Or.inl ⟨h9, h10, ?_⟩)))))))))
    have p1 : (1/10 : ℚ) < E := by linarith
    have p2 : (284/1000 : ℚ) < E := by linarith
    have p3 : (4/10 : ℚ) < E := by linarith
    have p4 : (532/1000 : ℚ) < E := by linarith
    have p5 : (707/1000 : ℚ) < E := by linarith
    have p6 : (867/1000 : ℚ) < E := by linarith
    have p7 : (1303/1000 : ℚ) < E := by linarith
    have p8 : (184/100 : ℚ) < E := by linarith
    have p9 : (2471/1000 : ℚ) < E := by linarith
    have n10 : ¬((321/100 : ℚ) < E) := not_lt.mpr (by linarith)
    have n11 : ¬((4038/1000 : ℚ) < E) := not_lt.mpr (by linarith)
    have n12 : ¬((7111/1000 : ℚ) < E) := not_lt.mpr (by linarith)
    have n13 : ¬((8331/1000 : ℚ) < E) := not_lt.mpr (by linarith)
    have n14 : ¬((10 : ℚ) < E) := not_lt.mpr (by linarith)
    simp only [countLt, wabsEmax]
    rw [if_pos hE, if_pos p1, if_pos p2, if_pos p3, if_pos p4, if_pos p5, if_pos p6, if_pos p7, if_pos p8, if_pos p9, if_neg n10, if_neg n11, if_neg n12, if_neg n13, if_neg n14]
  rcases le_or_lt E (4038/1000 : ℚ) with h11 | h11
  · refine Or.inr (Or.inr (Or.inr (Or.inr (Or.inr (Or.inr (Or.inr (Or.inr (Or.inr (Or.inr (Or.inl ⟨h10, h11, ?_⟩))))))))))
    have p1 : (1/10 : ℚ) < E := by linarith
    have p2 : (284/1000 : ℚ) < E := by linarith
    have p3 : (4/10 : ℚ) < E := by linarith
    have p4 : (532/1000 : ℚ) < E := by linarith
    have p5 : (707/1000 : ℚ) < E := by linarith
    have p6 : (867/1000 : ℚ) < E := by linarith
    have p7 : (1303/1000 : ℚ) < E := by linarith
    have p8 : (184/100 : ℚ) < E := by linarith
    have p9 : (2471/1000 : ℚ) < E := by linarith
    have p10 : (321/100 : ℚ) < E := by linarith
    have n11 : ¬((4038/1000 : ℚ) < E) := not_lt.mpr (by linarith)
    have n12 : ¬((7111/1000 : ℚ) < E) := not_lt.mpr (by linarith)
    have n13 : ¬((8331/1000 : ℚ) < E) := not_lt.mpr (by linarith)
    have n14 : ¬((10 : ℚ) < E) := not_lt.mpr (by linarith)
    simp only [countLt, wabsEmax]
    rw [if_pos hE, if_pos p1, if_pos p2, if_pos p3, if_pos p4, if_pos p5, if_pos p6, if_pos p7, if_pos p8, if_pos p9, if_pos p10, if_neg n11, if_neg n12, if_neg n13, if_neg n14]
  rcases le_or_lt E (7111/1000 : ℚ) with h12 | h12
  · refine Or.inr (Or.inr (Or.inr (Or.inr (Or.inr (Or.inr (Or.inr (Or.inr (Or.inr (Or.inr (Or.inr (Or.inl ⟨h11, h12, ?_⟩)))))))))))
    have p1 : (1/10 : ℚ) < E := by linarith
    have p2 : (284/1000 : ℚ) < E := by linarith
    have p3 : (4/10 : ℚ) < E := by linarith
    have p4 : (532/1000 : ℚ) < E := by linarith
    have p5 : (707/1000 : ℚ) < E := by linarith
    have p6 : (867/1000 : ℚ) < E := by linarith
    have p7 : (1303/1000 : ℚ) < E := by linarith
    have p8 : (184/100 : ℚ) < E := by linarith
    have p9 : (2471/1000 : ℚ) < E := by linarith
    have p10 : (321/100 : ℚ) < E := by linarith
    have p11 : (4038/1000 : ℚ) < E := by linarith
    have n12 : ¬((7111/1000 : ℚ) < E) := not_lt.mpr (by linarith)
    have n13 : ¬((8331/1000 : ℚ) < E) := not_lt.mpr (by linarith)
    have n14 : ¬((10 : ℚ) < E) := not_lt.mpr (by linarith)
    simp only [countLt, wabsEmax]
    rw [if_pos hE, if_pos p1, if_pos p2, if_pos p3, if_pos p4, if_pos p5, if_pos p6, if_pos p7, if_pos p8, if_pos p9, if_pos p10, if_pos p11, if_neg n12, if_neg n13, if_neg n14]
  rcases le_or_lt E (8331/1000 : ℚ) with h13 | h13
  · refine Or.inr (Or.inr (Or.inr (Or.inr (Or.inr (Or.inr (Or.inr (Or.inr (Or.inr (Or.inr (Or.inr (Or.inr (Or.inl ⟨h12, h13, ?_⟩))))))))))))
    have p1 : (1/10 : ℚ) < E := by linarith
    have p2 : (284/1000 : ℚ) < E := by linarith
    have p3 : (4/10 : ℚ) < E := by linarith
    have p4 : (532/1000 : ℚ) < E := by linarith
    have p5 : (707/1000 : ℚ) < E := by linarith
    have p6 : (867/1000 : ℚ) < E := by linarith
    have p7 : (1303/1000 : ℚ) < E := by linarith
    have p8 : (184/100 : ℚ) < E := by linarith
    have p9 : (2471/1000 : ℚ) < E := by linarith
    have p10 : (321/100 : ℚ) < E := by linarith
    have p11 : (4038/1000 : ℚ) < E := by linarith
    have p12 : (7111/1000 : ℚ) < E := by linarith
    have n13 : ¬((8331/1000 : ℚ) < E) := not_lt.mpr (by linarith)
    have n14 : ¬((10 : ℚ) < E) := not_lt.mpr (by linarith)
    simp only [countLt, wabsEmax]
    rw [if_pos hE, if_pos p1, if_pos p2, if_pos p3, if_pos p4, if_pos p5, if_pos p6, if_pos p7, if_pos p8, if_pos p9, if_pos p10, if_pos p11, if_pos p12, if_neg n13, if_neg n14]
  rcases le_or_lt E (10 : ℚ) with h14 | h14
  · refine Or.inr (Or.inr (Or.inr (Or.inr (Or.inr (Or.inr (Or.inr (Or.inr (Or.inr (Or.inr (Or.inr (Or.inr (Or.inr (Or.inl ⟨h13, h14, ?_⟩)))))))))))))
    have p1 : (1/10 : ℚ) < E := by linarith
    have p2 : (284/1000 : ℚ) < E := by linarith
    have p3 : (4/10 : ℚ) < E := by linarith
    have p4 : (532/1000 : ℚ) < E := by linarith
    have p5 : (707/1000 : ℚ) < E := by linarith
    have p6 : (867/1000 : ℚ) < E := by linarith
    have p7 : (1303/1000 : ℚ) < E := by linarith
    have p8 : (184/100 : ℚ) < E := by linarith
    have p9 : (2471/1000 : ℚ) < E := by linarith
    have p10 : (321/100 : ℚ) < E := by linarith
    have p11 : (4038/1000 : ℚ) < E := by linarith
    have p12 : (7111/1000 : ℚ) < E := by linarith
    have p13 : (8331/1000 : ℚ) < E := by linarith
    have n14 : ¬((10 : ℚ) < E) := not_lt.mpr (by linarith)
    simp only [countLt, wabsEmax]
    rw [if_pos hE, if_pos p1, if_pos p2, if_pos p3, if_pos p4, if_pos p5, if_pos p6, if_pos p7, if_pos p8, if_pos p9, if_pos p10, if_pos p11, if_pos p12, if_pos p13, if_neg n14]
  refine Or.inr (Or.inr (Or.inr (Or.inr (Or.inr (Or.inr (Or.inr (Or.inr (Or.inr (Or.inr (Or.inr (Or.inr (Or.inr (Or.inr (⟨h14, ?_⟩))))))))))))))
  have p1 : (1/10 : ℚ) < E := by linarith
  have p2 : (284/1000 : ℚ) < E := by linarith
  have p3 : (4/10 : ℚ) < E := by linarith
  have p4 : (532/1000 : ℚ) < E := by linarith
  have p5 : (707/1000 : ℚ) < E := by linarith
  have p6 : (867/1000 : ℚ) < E := by linarith
  have p7 : (1303/1000 : ℚ) < E := by linarith
  have p8 : (184/100 : ℚ) < E := by linarith
  have p9 : (2471/1000 : ℚ) < E := by linarith
  have p10 : (321/100 : ℚ) < E := by linarith
  have p11 : (4038/1000 : ℚ) < E := by linarith
  have p12 : (7111/1000 : ℚ) < E := by linarith
  have p13 : (8331/1000 : ℚ) < E := by linarith
  have p14 : (10 : ℚ) < E := by linarith
  simp only [countLt, wabsEmax]
  rw [if_pos hE, if_pos p1, if_pos p2, if_pos p3, if_pos p4, if_pos p5, if_pos p6, if_pos p7, if_pos p8, if_pos p9, if_pos p10, if_pos p11, if_pos p12, if_pos p13, if_pos p14]

/-- C6: for every positive energy `E`, the wabs cross section is
`(c0 + c1*E + c2*E^2)*1e-24/E^3` with the coefficients of the (clamped,
always in-range) segment index `i ≤ 13`; for `E ≤ 10` segment `i` is the
one whose boundary interval `(emax[i], emax[i+1]]` contains `E`, and every
`E` beyond the last boundary (10 keV) uses the topmost segment 13. -/
theorem wabs_cross_section_spec (E : ℚ) (hE : 0 < E) :
    ∃ i : ℕ, i ≤ 13 ∧
      wabs_cross_section E =
        (wabsC0.getD i 0 + wabsC1.getD i 0 * E + wabsC2.getD i 0 * E ^ 2)
          * (1 / 10 ^ 24) / E ^ 3 ∧
      (E ≤ 10 → wabsEmax.getD i 0 < E ∧ E ≤ wabsEmax.getD (i + 1) 0) ∧
      (10 < E → i = 13) := by
  rcases wabs_cases E hE with hbr | hbr | hbr | hbr | hbr | hbr | hbr | hbr | hbr | hbr | hbr | hbr | hbr | hbr | hbr
  · obtain ⟨hhi, hc⟩ := hbr
    refine ⟨0, by norm_num, ?_, ?_, ?_⟩
    · simp only [wabs_cross_section]
      rw [hc]
      rfl
    · intro hten
      constructor
      · show (0 : ℚ) < E
        exact hE
      · show E ≤ (1/10 : ℚ)
        exact hhi
    · intro hten
      exact absurd hten (not_lt.mpr (by linarith))
  · obtain ⟨hlo, hhi, hc⟩ := hbr
    refine ⟨1, by norm_num, ?_, ?_, ?_⟩
    · simp only [wabs_cross_section]
      rw [hc]
      rfl
    · intro hten
      constructor
      · show (1/10 : ℚ) < E
        exact hlo
      · show E ≤ (284/1000 : ℚ)
        exact hhi
    · intro hten
      exact absurd hten (not_lt.mpr (by linarith))
  · obtain ⟨hlo, hhi, hc⟩ := hbr
    refine ⟨2, by norm_num, ?_, ?_, ?_⟩
    · simp only [wabs_cross_section]
      rw [hc]
      rfl
    · intro hten
      constructor
      · show (284/1000 : ℚ) < E
        exact hlo
      · show E ≤ (4/10 : ℚ)
        exact hhi
    · intro hten
      exact absurd hten (not_lt.mpr (by linarith))
  · obtain ⟨hlo, hhi, hc⟩ := hbr
    refine ⟨3, by norm_num, ?_, ?_, ?_⟩
    · simp only [wabs_cross_section]
      rw [hc]
      rfl
    · intro hten
      constructor
      · show (4/10 : ℚ) < E
        exact hlo
      · show E ≤ (532/1000 : ℚ)
        exact hhi
    · intro hten
      exact absurd hten (not_lt.mpr (by linarith))
  · obtain ⟨hlo, hhi, hc⟩ := hbr
    refine ⟨4, by norm_num, ?_, ?_, ?_⟩
    · simp only [wabs_cross_section]
      rw [hc]
      rfl
    · intro hten
      constructor
      · show (532/1000 : ℚ) < E
        exact hlo
      · show E ≤ (707/1000 : ℚ)
        exact hhi
    · intro hten
      exact absurd hten (not_lt.mpr (by linarith))
  · obtain ⟨hlo, hhi, hc⟩ := hbr
    refine ⟨5, by norm_num, ?_, ?_, ?_⟩
    · simp only [wabs_cross_section]
      rw [hc]
      rfl
    · intro hten
      constructor
      · show (707/1000 : ℚ) < E
        exact hlo
      · show E ≤ (867/1000 : ℚ)
        exact hhi
    · intro hten
      exact absurd hten (not_lt.mpr (by linarith))
  · obtain ⟨hlo, hhi, hc⟩ := hbr
    refine ⟨6, by norm_num, ?_, ?_, ?_⟩
    · simp only [wabs_cross_section]
      rw [hc]
      rfl
    · intro hten
      constructor
      · show (867/1000 : ℚ) < E
        exact hlo
      · show E ≤ (1303/1000 : ℚ)
        exact hhi
    · intro hten
      exact absurd hten (not_lt.mpr (by linarith))
  · obtain ⟨hlo, hhi, hc⟩ := hbr
    refine ⟨7, by norm_num, ?_, ?_, ?_⟩
    · simp only [wabs_cross_section]
      rw [hc]
      rfl
    · intro hten
      constructor
      · show (1303/1000 : ℚ) < E
        exact hlo
      · show E ≤ (184/100 : ℚ)
        exact hhi
    · intro hten
      exact absurd hten (not_lt.mpr (by linarith))
  · obtain ⟨hlo, hhi, hc⟩ := hbr
    refine ⟨8, by norm_num, ?_, ?_, ?_⟩
    · simp only [wabs_cross_section]
      rw [hc]
      rfl
    · intro hten
      constructor
      · show (184/100 : ℚ) < E
        exact hlo
      · show E ≤ (2471/1000 : ℚ)
        exact hhi
    · intro hten
      exact absurd hten (not_lt.mpr (by linarith))
  · obtain ⟨hlo, hhi, hc⟩ := hbr
    refine ⟨9, by norm_num, ?_, ?_, ?_⟩
    · simp only [wabs_cross_section]
      rw [hc]
      rfl
    · intro hten
      constructor
      · show (2471/1000 : ℚ) < E
        exact hlo
      · show E ≤ (321/100 : ℚ)
        exact hhi
    · intro hten
      exact absurd hten (not_lt.mpr (by linarith))
  · obtain ⟨hlo, hhi, hc⟩ := hbr
    refine ⟨10, by norm_num, ?_, ?_, ?_⟩
    · simp only [wabs_cross_section]
      rw [hc]
      rfl
    · intro hten
      constructor
      · show (321/100 : ℚ) < E
        exact hlo
      · show E ≤ (4038/1000 : ℚ)
        exact hhi
    · intro hten
      exact absurd hten (not_lt.mpr (by linarith))
  · obtain ⟨hlo, hhi, hc⟩ := hbr
    refine ⟨11, by norm_num, ?_, ?_, ?_⟩
    · simp only [wabs_cross_section]
      rw [hc]
      rfl
    · intro hten
      constructor
      · show (4038/1000 : ℚ) < E
        exact hlo
      · show E ≤ (7111/1000 : ℚ)
        exact hhi
    · intro hten
      exact absurd hten (not_lt.mpr (by linarith))
  · obtain ⟨hlo, hhi, hc⟩ := hbr
    refine ⟨12, by norm_num, ?_, ?_, ?_⟩
    · simp only [wabs_cross_section]
      rw [hc]
      rfl
    · intro hten
      constructor
      · show (7111/1000 : ℚ) < E
        exact hlo
      · show E ≤ (8331/1000 : ℚ)
        exact hhi
    · intro hten
      exact absurd hten (not_lt.mpr (by linarith))
  · obtain ⟨hlo, hhi, hc⟩ := hbr
    refine ⟨13, by norm_num, ?_, ?_, ?_⟩
    · simp only [wabs_cross_section]
      rw [hc]
      rfl
    · intro hten
      constructor
      · show (8331/1000 : ℚ) < E
        exact hlo
      · show E ≤ (10 : ℚ)
        exact hhi
    · intro _
      rfl
  · obtain ⟨hlo, hc⟩ := hbr
    refine ⟨13, by norm_num, ?_, ?_, ?_⟩
    · simp only [wabs_cross_section]
      rw [hc]
      rfl
    · intro hten
      exact absurd hlo (not_lt.mpr hten)
    · intro _
      rfl

set_option maxHeartbeats 4000000 in
/-- The wabs cross section is strictly positive at every positive energy
(each segment polynomial is positive on its segment). -/
theorem wabs_cross_section_pos (E : ℚ) (hE : 0 < E) :
    0 < wabs_cross_section E := by
  rcases wabs_cases E hE with hbr | hbr | hbr | hbr | hbr | hbr | hbr | hbr | hbr | hbr | hbr | hbr | hbr | hbr | hbr
  · obtain ⟨hhi, hc⟩ := hbr
    have heq : wabs_cross_section E = ((173/10 : ℚ) + (6081/10 : ℚ) * E + (-2150 : ℚ) * E ^ 2) * (1 / 10 ^ 24) / E ^ 3 := by
      simp only [wabs_cross_section]
      rw [hc]
      rfl
    rw [heq]
    clear heq hc
    refine div_pos (mul_pos ?_ (by norm_num)) (pow_pos hE 3)
    nlinarith [mul_le_mul_of_nonneg_left hhi hE.le, hE]
  · obtain ⟨hlo, hhi, hc⟩ := hbr
    have heq : wabs_cross_section E = ((346/10 : ℚ) + (2679/10 : ℚ) * E + (-4761/10 : ℚ) * E ^ 2) * (1 / 10 ^ 24) / E ^ 3 := by
      simp only [wabs_cross_section]
      rw [hc]
      rfl
    rw [heq]
    clear heq hc
    refine div_pos (mul_pos ?_ (by norm_num)) (pow_pos hE 3)
    nlinarith [mul_le_mul_of_nonneg_left hhi hE.le, hE]
  · obtain ⟨hlo, hhi, hc⟩ := hbr
    have heq : wabs_cross_section E = ((781/10 : ℚ) + (188/10 : ℚ) * E + (43/10 : ℚ) * E ^ 2) * (1 / 10 ^ 24) / E ^ 3 := by
      simp only [wabs_cross_section]
      rw [hc]
      rfl
    rw [heq]
    clear heq hc
    refine div_pos (mul_pos ?_ (by norm_num)) (pow_pos hE 3)
    nlinarith [hE.le, sq_nonneg E]
  · obtain ⟨hlo, hhi, hc⟩ := hbr
    have heq : wabs_cross_section E = ((714/10 : ℚ) + (668/10 : ℚ) * E + (-514/10 : ℚ) * E ^ 2) * (1 / 10 ^ 24) / E ^ 3 := by
      simp only [wabs_cross_section]
      rw [hc]
      rfl
    rw [heq]
    clear heq hc
    refine div_pos (mul_pos ?_ (by norm_num)) (pow_pos hE 3)
    nlinarith [mul_le_mul_of_nonneg_left hhi hE.le, hE]
  · obtain ⟨hlo, hhi, hc⟩ := hbr
    have heq : wabs_cross_section E = ((955/10 : ℚ) + (1458/10 : ℚ) * E + (-611/10 : ℚ) * E ^ 2) * (1 / 10 ^ 24) / E ^ 3 := by
      simp only [wabs_cross_section]
      rw [hc]
      rfl
    rw [heq]
    clear heq hc
    refine div_pos (mul_pos ?_ (by norm_num)) (pow_pos hE 3)
    nlinarith [mul_le_mul_of_nonneg_left hhi hE.le, hE]
  · obtain ⟨hlo, hhi, hc⟩ := hbr
    have heq : wabs_cross_section E = ((3089/10 : ℚ) + (-3806/10 : ℚ) * E + (294 : ℚ) * E ^ 2) * (1 / 10 ^ 24) / E ^ 3 := by
      simp only [wabs_cross_section]
      rw [hc]
      rfl
    rw [heq]
    clear heq hc
    refine div_pos (mul_pos ?_ (by norm_num)) (pow_pos hE 3)
    nlinarith [mul_le_mul_of_nonneg_left hlo.le hE.le, hE, hhi]
  · obtain ⟨hlo, hhi, hc⟩ := hbr
    have heq : wabs_cross_section E = ((1206/10 : ℚ) + (1693/10 : ℚ) * E + (-477/10 : ℚ) * E ^ 2) * (1 / 10 ^ 24) / E ^ 3 := by
      simp only [wabs_cross_section]
      rw [hc]
      rfl
    rw [heq]
    clear heq hc
    refine div_pos (mul_pos ?_ (by norm_num)) (pow_pos hE 3)
    nlinarith [mul_le_mul_of_nonneg_left hhi hE.le, hE]
  · obtain ⟨hlo, hhi, hc⟩ := hbr
    have heq : wabs_cross_section E = ((1413/10 : ℚ) + (1468/10 : ℚ) * E + (-315/10 : ℚ) * E ^ 2) * (1 / 10 ^ 24) / E ^ 3 := by
      simp only [wabs_cross_section]
      rw [hc]
      rfl
    rw [heq]
    clear heq hc
    refine div_pos (mul_pos ?_ (by norm_num)) (pow_pos hE 3)
    nlinarith [mul_le_mul_of_nonneg_left hhi hE.le, hE]
  · obtain ⟨hlo, hhi, hc⟩ := hbr
    have heq : wabs_cross_section E = ((2027/10 : ℚ) + (1047/10 : ℚ) * E + (-17 : ℚ) * E ^ 2) * (1 / 10 ^ 24) / E ^ 3 := by
      simp only [wabs_cross_section]
      rw [hc]
      rfl
    rw [heq]
    clear heq hc
    refine div_pos (mul_pos ?_ (by norm_num)) (pow_pos hE 3)
    nlinarith [mul_le_mul_of_nonneg_left hhi hE.le, hE]
  · obtain ⟨hlo, hhi, hc⟩ := hbr
    have heq : wabs_cross_section E = ((3427/10 : ℚ) + (187/10 : ℚ) * E + (0 : ℚ) * E ^ 2) * (1 / 10 ^ 24) / E ^ 3 := by
      simp only [wabs_cross_section]
      rw [hc]
      rfl
    rw [heq]
    clear heq hc
    refine div_pos (mul_pos ?_ (by norm_num)) (pow_pos hE 3)
    nlinarith [hE, sq_nonneg E]
  · obtain ⟨hlo, hhi, hc⟩ := hbr
    have heq : wabs_cross_section E = ((3522/10 : ℚ) + (187/10 : ℚ) * E + (0 : ℚ) * E ^ 2) * (1 / 10 ^ 24) / E ^ 3 := by
      simp only [wabs_cross_section]
      rw [hc]
      rfl
    rw [heq]
    clear heq hc
    refine div_pos (mul_pos ?_ (by norm_num)) (pow_pos hE 3)
    nlinarith [hE, sq_nonneg E]
  · obtain ⟨hlo, hhi, hc⟩ := hbr
    have heq : wabs_cross_section E = ((4339/10 : ℚ) + (-24/10 : ℚ) * E + (3/4 : ℚ) * E ^ 2) * (1 / 10 ^ 24) / E ^ 3 := by
      simp only [wabs_cross_section]
      rw [hc]
      rfl
    rw [heq]
    clear heq hc
    refine div_pos (mul_pos ?_ (by norm_num)) (pow_pos hE 3)
    nlinarith [sq_nonneg E, hhi, hE]
  · obtain ⟨hlo, hhi, hc⟩ := hbr
    have heq : wabs_cross_section E = ((629 : ℚ) + (309/10 : ℚ) * E + (0 : ℚ) * E ^ 2) * (1 / 10 ^ 24) / E ^ 3 := by
      simp only [wabs_cross_section]
      rw [hc]
      rfl
    rw [heq]
    clear heq hc
    refine div_pos (mul_pos ?_ (by norm_num)) (pow_pos hE 3)
    nlinarith [hE, sq_nonneg E]
  · obtain ⟨hlo, hhi, hc⟩ := hbr
    have heq : wabs_cross_section E = ((7012/10 : ℚ) + (252/10 : ℚ) * E + (0 : ℚ) * E ^ 2) * (1 / 10 ^ 24) / E ^ 3 := by
      simp only [wabs_cross_section]
      rw [hc]
      rfl
    rw [heq]
    clear heq hc
    refine div_pos (mul_pos ?_ (by norm_num)) (pow_pos hE 3)
    nlinarith [hE, hlo]
  · obtain ⟨hlo, hc⟩ := hbr
    have heq : wabs_cross_section E = ((7012/10 : ℚ) + (252/10 : ℚ) * E + (0 : ℚ) * E ^ 2) * (1 / 10 ^ 24) / E ^ 3 := by
      simp only [wabs_cross_section]
      rw [hc]
      rfl
    rw [heq]
    clear heq hc
    refine div_pos (mul_pos ?_ (by norm_num)) (pow_pos hE 3)
    nlinarith [hE, hlo]

/-- C6 witness: the spec instantiated at `E = 1` keV (segment 6,
`0.867 < 1 ≤ 1.303`). -/
theorem wabs_cross_section_spec_witness :
    (0 : ℚ) < 1 ∧
    ∃ i : ℕ, i ≤ 13 ∧
      wabs_cross_section 1 =
        (wabsC0.getD i 0 + wabsC1.getD i 0 * 1 + wabsC2.getD i 0 * 1 ^ 2)
          * (1 / 10 ^ 24) / 1 ^ 3 ∧
      ((1 : ℚ) ≤ 10 → wabsEmax.getD i 0 < 1 ∧ (1 : ℚ) ≤ wabsEmax.getD (i + 1) 0) ∧
      ((10 : ℚ) < 1 → i = 13) :=
  ⟨by norm_num, wabs_cross_section_spec 1 (by norm_num)⟩

/-! ## C7 / C5: foreground absorption -/

/-- Pointwise effect of the absorption body when the cross section is
strictly positive at every (redshifted) midpoint: every bin's flux strictly
decreases. -/
theorem absorb_flux_lt (σ : ℚ → ℚ) (nH : ℚ) (hnH : 0 < nH) (s : Spectrum)
    (hflux : ∀ f ∈ s.flux, 0 < f)
    (hσ : ∀ m ∈ emidOf s.ebins, 0 < σ (m * (1 + 0))) :
    List.Forall₂ (fun (a : ℝ) (p : ℚ × ℚ) => a < (p.1 : ℝ))
      (absorbFlux σ nH 0 s) (s.flux.zip (emidOf s.ebins)) := by
  unfold absorbFlux
  rw [List.forall₂_map_left_iff, List.forall₂_same]
  intro p hp
  obtain ⟨x, y⟩ := p
  have hx : (0 : ℝ) < (x : ℝ) := by exact_mod_cast hflux x (List.of_mem_zip hp).1
  have hσR : (0 : ℝ) < ((σ (y * (1 + 0)) : ℚ) : ℝ) := by
    exact_mod_cast hσ y (List.of_mem_zip hp).2
  have harg : (0 : ℝ) < (nH : ℝ) * 10 ^ 22 * ((σ (y * (1 + 0)) : ℚ) : ℝ) :=
    mul_pos (mul_pos (by exact_mod_cast hnH) (by norm_num)) hσR
  have hexp : Real.exp (-((nH : ℝ) * 10 ^ 22 * ((σ (y * (1 + 0)) : ℚ) : ℝ))) < 1 :=
    Real.exp_lt_one_iff.mpr (by linarith)
  calc (x : ℝ) * Real.exp (-((nH : ℝ) * 10 ^ 22 * ((σ (y * (1 + 0)) : ℚ) : ℝ)))
      < (x : ℝ) * 1 := mul_lt_mul_of_pos_left hexp hx
    _ = (x : ℝ) := mul_one _

/-- Pointwise effect of the absorption body for an arbitrary cross-section
model at redshift 0: a bin strictly decreases when the cross section at its
midpoint is strictly positive, and is exactly unchanged when the cross
section there is zero (the out-of-domain tbabs case). -/
theorem absorb_flux_cond (σ : ℚ → ℚ) (nH : ℚ) (hnH : 0 < nH) (s : Spectrum)
    (hflux : ∀ f ∈ s.flux, 0 < f) :
    List.Forall₂ (fun (a : ℝ) (p : ℚ × ℚ) =>
        (0 < σ p.2 → a < (p.1 : ℝ)) ∧ (σ p.2 = 0 → a = (p.1 : ℝ)))
      (absorbFlux σ nH 0 s) (s.flux.zip (emidOf s.ebins)) := by
  unfold absorbFlux
  rw [List.forall₂_map_left_iff, List.forall₂_same]
  intro p hp
  obtain ⟨x, y⟩ := p
  have hx : (0 : ℝ) < (x : ℝ) := by exact_mod_cast hflux x (List.of_mem_zip hp).1
  constructor
  · intro hσ
    have hσR : (0 : ℝ) < ((σ (y * (1 + 0)) : ℚ) : ℝ) := by
      rw [add_zero, mul_one]
      exact_mod_cast hσ
    have harg : (0 : ℝ) < (nH : ℝ) * 10 ^ 22 * ((σ (y * (1 + 0)) : ℚ) : ℝ) :=
      mul_pos (mul_pos (by exact_mod_cast hnH) (by norm_num)) hσR
    have hexp : Real.exp (-((nH : ℝ) * 10 ^ 22 * ((σ (y * (1 + 0)) : ℚ) : ℝ))) < 1 :=
      Real.exp_lt_one_iff.mpr (by linarith)
    calc (x : ℝ) * Real.exp (-((nH : ℝ) * 10 ^ 22 * ((σ (y * (1 + 0)) : ℚ) : ℝ)))
        < (x : ℝ) * 1 := mul_lt_mul_of_pos_left hexp hx
      _ = (x : ℝ) := mul_one _
  · intro hσ0
    have hz : σ (y * (1 + 0)) = 0 := by
      rw [add_zero, mul_one]
      exact hσ0
    rw [hz]
    simp

/-- C7 (amended): on a flux-domain spectrum with strictly positive flux and
positive bin midpoints, `apply_foreground_absorption` with `nH > 0` and
redshift 0 runs (no error) and, with the **wabs** model, strictly decreases
the flux at every bin; with the **tbabs** model the flux strictly decreases
at a bin exactly when the interpolated cross section at its midpoint is
positive, and is exactly unchanged at a bin whose cross section is zero —
which `ext=1` forces for every midpoint outside the tabulated domain. -/
theorem apply_foreground_absorption_decreases (tb : TbabsTable) (s : Spectrum)
    (nH : ℚ) (hnH : 0 < nH) (hkind : s.kind = SpecKind.plain)
    (hflux : ∀ f ∈ s.flux, 0 < f)
    (hmid : ∀ m ∈ emidOf s.ebins, 0 < m) :
    (s.apply_foreground_absorption tb nH "wabs" 0
        = Except.ok (absorbFlux wabs_cross_section nH 0 s) ∧
      List.Forall₂ (fun (a : ℝ) (p : ℚ × ℚ) => a < (p.1 : ℝ))
        (absorbFlux wabs_cross_section nH 0 s) (s.flux.zip (emidOf s.ebins))) ∧
    (s.apply_foreground_absorption tb nH "tbabs" 0
        = Except.ok (absorbFlux tb.sigma nH 0 s) ∧
      List.Forall₂ (fun (a : ℝ) (p : ℚ × ℚ) =>
          (0 < tb.sigma p.2 → a < (p.1 : ℝ)) ∧ (tb.sigma p.2 = 0 → a = (p.1 : ℝ)))
        (absorbFlux tb.sigma nH 0 s) (s.flux.zip (emidOf s.ebins))) := by
  refine ⟨⟨?_, ?_⟩, ⟨?_, ?_⟩⟩
  · simp [Spectrum.apply_foreground_absorption, hkind]
  · refine absorb_flux_lt wabs_cross_section nH hnH s hflux ?_
    intro m hm
    rw [add_zero, mul_one]
    exact wabs_cross_section_pos m (hmid m hm)
  · simp [Spectrum.apply_foreground_absorption, hkind]
  · exact absorb_flux_cond tb.sigma nH hnH s hflux

/-- A concrete tbabs table for the C7 witness: domain `[0, 100]` keV with
cross section 1 inside (and, as `ext=1` dictates, 0 outside). -/
def tbW : TbabsTable :=
  ⟨0, 100, fun e => if e < 0 ∨ 100 < e then 0 else 1, fun _ h => if_pos h⟩

/-- A concrete flux-domain spectrum for the C7 witness. -/
def c7wspec : Spectrum := mkSpectrum [1, 2] [1] SpecKind.plain

/-- C7 witness: the amended statement instantiated at `nH = 1` on a concrete
positive-flux spectrum and a concrete table covering its midpoint. -/
theorem apply_foreground_absorption_decreases_witness :
    (Spectrum.apply_foreground_absorption tbW c7wspec 1 "wabs" 0
        = Except.ok (absorbFlux wabs_cross_section 1 0 c7wspec) ∧
      List.Forall₂ (fun (a : ℝ) (p : ℚ × ℚ) => a < (p.1 : ℝ))
        (absorbFlux wabs_cross_section 1 0 c7wspec)
        (c7wspec.flux.zip (emidOf c7wspec.ebins))) ∧
    (Spectrum.apply_foreground_absorption tbW c7wspec 1 "tbabs" 0
        = Except.ok (absorbFlux tbW.sigma 1 0 c7wspec) ∧
      List.Forall₂ (fun (a : ℝ) (p : ℚ × ℚ) =>
          (0 < tbW.sigma p.2 → a < (p.1 : ℝ)) ∧ (tbW.sigma p.2 = 0 → a = (p.1 : ℝ)))
        (absorbFlux tbW.sigma 1 0 c7wspec)
        (c7wspec.flux.zip (emidOf c7wspec.ebins))) :=
  apply_foreground_absorption_decreases tbW c7wspec 1 (by norm_num) rfl
    (by norm_num [c7wspec, mkSpectrum, Spectrum.compute_total_flux])
    (by norm_num [c7wspec, mkSpectrum, Spectrum.compute_total_flux, emidOf])

/-- A concrete tbabs table whose tabulated domain is `[0.1, 10]` keV, for
the C7 counterexample (the real `tbabs_table.h5` likewise covers a bounded
band, while spectra may extend far beyond it). -/
def tbCex : TbabsTable :=
  ⟨1/10, 10, fun e => if e < 1/10 ∨ 10 < e then 0 else 1, fun _ h => if_pos h⟩

/-- A positive flux-domain spectrum whose single bin midpoint (20 keV) lies
outside the table domain. -/
def c7spec : Spectrum := mkSpectrum [19, 21] [1] SpecKind.plain

/-- C7 counterexample: with the tbabs model, `nH = 1 > 0` and a strictly
positive spectrum, the bin whose midpoint falls outside the tabulated
domain gets cross section exactly 0 (`ext=1`), so its flux comes back
exactly equal to the input — not strictly smaller, refuting the claim's
"for either model ... strictly smaller at every bin". -/
theorem tbabs_absorption_not_strict_counterexample :
    Spectrum.apply_foreground_absorption tbCex c7spec 1 "tbabs" 0
      = Except.ok [((1 : ℚ) : ℝ)] ∧ ¬(((1 : ℚ) : ℝ) < ((1 : ℚ) : ℝ)) := by
  constructor
  · have hm : emidOf c7spec.ebins = [20] := by
      norm_num [c7spec, mkSpectrum, Spectrum.compute_total_flux, emidOf]
    have hf : c7spec.flux = [1] := rfl
    have hk : c7spec.kind = SpecKind.plain := rfl
    have hσ : tbCex.sigma (20 * (1 + 0)) = 0 := by
      norm_num [tbCex]
    have hσ2 : tbCex.sigma 20 = 0 := by
      norm_num [tbCex]
    simp [Spectrum.apply_foreground_absorption, hk, absorbFlux, hm, hf, hσ, hσ2]
  · exact lt_irrefl _

/-- C5 (amended): `apply_foreground_absorption` on a **ConvolvedSpectrum**
raises `NotImplementedError` for every `nH`, model string and redshift (a
pure raise: the flux and cached aggregates are untouched), while a plain
**CountRateSpectrum** does *not* refuse — it inherits the base flux-domain
implementation and applies the absorption. -/
theorem apply_foreground_absorption_dispatch (tb : TbabsTable) (s : Spectrum)
    (nH z : ℚ) (model : String) :
    (∀ arf : ARF, s.kind = SpecKind.convolved arf →
      s.apply_foreground_absorption tb nH model z
        = Except.error SpecError.notImplemented) ∧
    (s.kind = SpecKind.countRate → model = "wabs" →
      s.apply_foreground_absorption tb nH model z
        = Except.ok (absorbFlux wabs_cross_section nH z s)) := by
  constructor
  · intro arf h
    simp [Spectrum.apply_foreground_absorption, h]
  · intro h hmodel
    simp [Spectrum.apply_foreground_absorption, h, hmodel]

/-- A zero tbabs table (its contents are irrelevant to the C5 statements). -/
def tb0 : TbabsTable := ⟨0, 1, fun _ => 0, fun _ _ => rfl⟩

/-- An ARF for the C5 witness. -/
def c5arf : ARF := ⟨fun _ => 50⟩

/-- A concrete convolved spectrum for the C5 witness. -/
def c5conv : Spectrum := mkSpectrum [1, 2] [1] (SpecKind.convolved c5arf)

/-- A concrete count-rate spectrum (no response bound). -/
def c5cr : Spectrum := mkSpectrum [1, 2] [1] SpecKind.countRate

/-- C5 witness: the amended statement at concrete inputs — the convolved
spectrum is refused with "not implemented", while the count-rate spectrum
runs the base absorption. -/
theorem apply_foreground_absorption_dispatch_witness :
    Spectrum.apply_foreground_absorption tb0 c5conv 1 "wabs" 0
      = Except.error SpecError.notImplemented ∧
    Spectrum.apply_foreground_absorption tb0 c5cr 1 "wabs" 0
      = Except.ok (absorbFlux wabs_cross_section 1 0 c5cr) :=
  ⟨(apply_foreground_absorption_dispatch tb0 c5conv 1 0 "wabs").1 c5arf rfl,
    (apply_foreground_absorption_dispatch tb0 c5cr 1 0 "wabs").2 rfl rfl⟩

/-- C5 counterexample: a `CountRateSpectrum` — unit tag `photon/(s*keV)`,
no bound response — does **not** signal "not implemented": the call
returns normally (`CountRateSpectrum` never overrides the base
`apply_foreground_absorption`), refuting the claim for the count-rate
variant. -/
theorem countrate_absorption_not_refused :
    unitsOf c5cr.kind = "photon/(s*keV)" ∧
    Spectrum.apply_foreground_absorption tb0 c5cr 1 "wabs" 0
      ≠ Except.error SpecError.notImplemented := by
  constructor
  · rfl
  · have hk : c5cr.kind = SpecKind.countRate := rfl
    simp [Spectrum.apply_foreground_absorption, hk]
